import Mathlib

/-!
Verification of the certificate back office core (certificate lifecycle
engine, public verification, rate limiter, reset-token guard, password
strength checks) via a shallow embedding of the TypeScript source.

JavaScript strings are modelled as `List Char`; `Date` values as `Nat`
millisecond timestamps; `undefined`-able fields as `Option`; the JS `Map`
backing the in-memory certificate store as an insertion-ordered
association list.
-/

namespace PIC

/-- ASCII lower-casing of one character, as `String.prototype.toLowerCase`
acts on the ASCII range. -/
def jsToLowerChar (c : Char) : Char :=
  if 65 ≤ c.toNat ∧ c.toNat ≤ 90 then Char.ofNat (c.toNat + 32) else c

/-- `String.prototype.toLowerCase` on an ASCII string. -/
def jsToLower (s : List Char) : List Char :=
  s.map jsToLowerChar

/-- ASCII upper-casing of one character, as `String.prototype.toUpperCase`
acts on the ASCII range. -/
def jsToUpperChar (c : Char) : Char :=
  if 97 ≤ c.toNat ∧ c.toNat ≤ 122 then Char.ofNat (c.toNat - 32) else c

/-- `String.prototype.includes`: `sub` occurs contiguously in `hay`. -/
def jsIncludes (hay sub : List Char) : Bool :=
  match hay with
  | [] => sub.isEmpty
  | _ :: t => sub.isPrefixOf hay || jsIncludes t sub

/-- JS truthiness of an optional string (`undefined` and `""` are falsy). -/
def truthyStr (s : Option (List Char)) : Bool :=
  match s with
  | none => false
  | some v => !v.isEmpty

/-- JS truthiness of an optional number (`undefined` and `0` are falsy). -/
def truthyNum (n : Option Nat) : Bool :=
  match n with
  | none => false
  | some v => v ≠ 0

/-- `CertificateStatus` enum from `types`. -/
inductive CertificateStatus where
  | active
  | expired
  | revoked
  | pending
  | draft
  | issued
deriving DecidableEq, Repr

/-- `CertificateType` enum from `types`. -/
inductive CertificateType where
  | completion
  | achievement
  | participation
  | excellence
deriving DecidableEq, Repr

/-- The `Certificate` entity from `types`. `Date` fields are millisecond
timestamps; `metadata` is an opaque key-value list. -/
structure Certificate where
  id : List Char
  certificateId : List Char
  userId : List Char
  name : List Char
  description : Option (List Char)
  type : CertificateType
  status : CertificateStatus
  recipientName : Option (List Char)
  recipientEmail : Option (List Char)
  issueDate : Option Nat
  expiryDate : Option Nat
  issuedAt : Option Nat
  expiresAt : Option Nat
  revokedAt : Option Nat
  revocationReason : Option (List Char)
  metadata : List (List Char × List Char)
  createdAt : Nat
  updatedAt : Nat
deriving DecidableEq, Repr

/-- `CertificateCreateInput` from `types`: note it has `expiryDate` but no
`expiresAt` field. -/
structure CertificateCreateInput where
  userId : List Char
  name : List Char
  description : Option (List Char)
  type : CertificateType
  recipientName : Option (List Char)
  recipientEmail : Option (List Char)
  issueDate : Option Nat
  expiryDate : Option Nat
  metadata : List (List Char × List Char)
deriving DecidableEq, Repr

/-- `CertificateUpdateInput` from `types`: all-optional non-status fields;
again `expiryDate` only, no `expiresAt`, no `status`, no ids. -/
structure CertificateUpdateInput where
  name : Option (List Char)
  description : Option (List Char)
  type : Option CertificateType
  recipientName : Option (List Char)
  recipientEmail : Option (List Char)
  issueDate : Option Nat
  expiryDate : Option Nat
  metadata : Option (List (List Char × List Char))
deriving DecidableEq, Repr

/-- The in-memory store `Map<string, Certificate>` keyed by internal id,
as an insertion-ordered association list with unique keys. -/
abbrev CertStore := List (List Char × Certificate)

/-- `Map.prototype.get`. -/
def mapGet (m : CertStore) (k : List Char) : Option Certificate :=
  (m.find? (fun e => e.1 = k)).map (·.2)

/-- `Map.prototype.set`: overwrite in place when the key exists, else
append (JS `Map` keeps insertion order). -/
def mapSet (m : CertStore) (k : List Char) (v : Certificate) : CertStore :=
  if m.any (fun e => e.1 = k) then
    m.map (fun e => if e.1 = k then (k, v) else e)
  else
    m ++ [(k, v)]

/-- `Map.prototype.delete` (dropping the key). -/
def mapDelete (m : CertStore) (k : List Char) : CertStore :=
  m.filter (fun e => ¬ e.1 = k)

/-- `Map.prototype.values` in insertion order. -/
def mapValues (m : CertStore) : List Certificate :=
  m.map (·.2)

/-- `CertificateFilters` from `certificate.service`. -/
structure CertificateFilters where
  status : Option CertificateStatus := none
  userId : Option (List Char) := none
  search : Option (List Char) := none
  dateFrom : Option Nat := none
  dateTo : Option Nat := none
  limit : Option Nat := none
  offset : Option Nat := none
deriving DecidableEq, Repr

/-- `CertificateValidationResult` from `certificate.service`. -/
structure CertificateValidationResult where
  isValid : Bool
  certificate : Option Certificate := none
  error : Option (List Char) := none
deriving DecidableEq, Repr

/-- `CertificateService.createCertificate`: the fresh `uuidv4()` internal id
and the generated `certificateId` are nondeterministic inputs, passed as
parameters; `now` is the clock. Returns the created certificate and the
new store. Fields of `Certificate` not present in the object literal
(issuedAt, expiresAt, revokedAt, revocationReason) are `undefined`. -/
def createCertificate (store : CertStore) (input : CertificateCreateInput)
    (freshId freshCertId : List Char) (now : Nat) :
    Certificate × CertStore :=
  let certificate : Certificate :=
    { id := freshId
      certificateId := freshCertId
      userId := input.userId
      name := input.name
      description := input.description
      type := input.type
      recipientName := input.recipientName
      recipientEmail := input.recipientEmail
      issueDate := input.issueDate
      expiryDate := input.expiryDate
      metadata := input.metadata
      status := CertificateStatus.draft
      issuedAt := none
      expiresAt := none
      revokedAt := none
      revocationReason := none
      createdAt := now
      updatedAt := now }
  (certificate, mapSet store certificate.id certificate)

/-- The spread `{...certificate, ...input}` for an update: every field the
input supplies overwrites, every absent field is kept. -/
def applyUpdate (c : Certificate) (input : CertificateUpdateInput) : Certificate :=
  { c with
    name := input.name.getD c.name
    description := if input.description.isSome then input.description else c.description
    type := input.type.getD c.type
    recipientName := if input.recipientName.isSome then input.recipientName else c.recipientName
    recipientEmail := if input.recipientEmail.isSome then input.recipientEmail else c.recipientEmail
    issueDate := if input.issueDate.isSome then input.issueDate else c.issueDate
    expiryDate := if input.expiryDate.isSome then input.expiryDate else c.expiryDate
    metadata := input.metadata.getD c.metadata }

/-- `CertificateService.updateCertificate`: merge the partial input over
the stored certificate, bump `updatedAt`; `null` and untouched store when
the id is unknown. -/
def updateCertificate (store : CertStore) (id : List Char)
    (input : CertificateUpdateInput) (now : Nat) :
    Option Certificate × CertStore :=
  match mapGet store id with
  | none => (none, store)
  | some certificate =>
      let updatedCertificate := { applyUpdate certificate input with updatedAt := now }
      (some updatedCertificate, mapSet store id updatedCertificate)

/-- `CertificateService.getCertificateById`. -/
def getCertificateById (store : CertStore) (id : List Char) : Option Certificate :=
  mapGet store id

/-- `CertificateService.getCertificateByCertificateId`: first certificate
in insertion order whose public `certificateId` matches. -/
def getCertificateByCertificateId (store : CertStore) (certificateId : List Char) :
    Option Certificate :=
  (mapValues store).find? (fun c => c.certificateId = certificateId)

/-- `CertificateService.deleteCertificate`: hard delete; `false` and
untouched store when the id is unknown. -/
def deleteCertificate (store : CertStore) (id : List Char) :
    Bool × CertStore :=
  match mapGet store id with
  | none => (false, store)
  | some _ => (true, mapDelete store id)

/-- One email handed to the external notifier:
`(to, certificateId, name)`. -/
structure EmailMsg where
  toAddr : List Char
  certificateId : List Char
  name : List Char
deriving DecidableEq, Repr

/-- `CertificateService.issueCertificate`: set status Issued, stamp
`issuedAt`/`updatedAt`, notify the recipient when an email is present.
Returns the result, the new store, and the emails sent. -/
def issueCertificate (store : CertStore) (id : List Char) (now : Nat) :
    Option Certificate × CertStore × List EmailMsg :=
  match mapGet store id with
  | none => (none, store, [])
  | some certificate =>
      let updatedCertificate : Certificate :=
        { certificate with
          status := CertificateStatus.issued
          issuedAt := some now
          updatedAt := now }
      let emails :=
        match certificate.recipientEmail with
        | none => []
        | some addr => [⟨addr, certificate.certificateId, certificate.name⟩]
      (some updatedCertificate, mapSet store id updatedCertificate, emails)

/-- `CertificateService.revokeCertificate`: set status Revoked, stamp
`revokedAt`/`updatedAt`, store the (possibly absent) reason; `null` and
untouched store when the id is unknown. -/
def revokeCertificate (store : CertStore) (id : List Char)
    (reason : Option (List Char)) (now : Nat) :
    Option Certificate × CertStore :=
  match mapGet store id with
  | none => (none, store)
  | some certificate =>
      let updatedCertificate : Certificate :=
        { certificate with
          status := CertificateStatus.revoked
          revokedAt := some now
          revocationReason := reason
          updatedAt := now }
      (some updatedCertificate, mapSet store id updatedCertificate)

/-- The expiry test `cert.expiresAt && cert.expiresAt < now`. -/
def isExpiredAt (c : Certificate) (now : Nat) : Bool :=
  match c.expiresAt with
  | none => false
  | some e => e < now

/-- `CertificateService.verifyCertificate`: lookup by public id, then the
priority chain revoked → draft → expired → valid. -/
def verifyCertificate (store : CertStore) (certificateId : List Char) (now : Nat) :
    CertificateValidationResult :=
  match getCertificateByCertificateId store certificateId with
  | none =>
      { isValid := false
        error := some "Certificate not found".data }
  | some certificate =>
      if certificate.status = CertificateStatus.revoked then
        { isValid := false
          certificate := some certificate
          error := some "Certificate has been revoked".data }
      else if certificate.status = CertificateStatus.draft then
        { isValid := false
          certificate := some certificate
          error := some "Certificate has not been issued yet".data }
      else if isExpiredAt certificate now then
        { isValid := false
          certificate := some certificate
          error := some "Certificate has expired".data }
      else
        { isValid := true
          certificate := some certificate }

/-- One certificate passes the `search` filter when the lower-cased term
occurs in its name, description, recipientName or certificateId
(optional fields contribute `false` when absent, as the optional chaining
`?.` does). -/
def searchMatches (c : Certificate) (searchTerm : List Char) : Bool :=
  jsIncludes (jsToLower c.name) searchTerm ||
  (match c.description with
   | none => false
   | some d => jsIncludes (jsToLower d) searchTerm) ||
  (match c.recipientName with
   | none => false
   | some r => jsIncludes (jsToLower r) searchTerm) ||
  jsIncludes (jsToLower c.certificateId) searchTerm

/-- Insert into a list already sorted by `createdAt` descending, after
every element with an equal or larger key (stability of `Array.sort`). -/
def insertByCreatedAtDesc (c : Certificate) : List Certificate → List Certificate
  | [] => [c]
  | d :: ds =>
      if d.createdAt < c.createdAt then c :: d :: ds
      else d :: insertByCreatedAtDesc c ds

/-- Stable sort by `createdAt` descending, the effect of
`certificates.sort((a, b) => b.createdAt.getTime() - a.createdAt.getTime())`. -/
def sortByCreatedAtDesc (l : List Certificate) : List Certificate :=
  l.foldl (fun acc c => insertByCreatedAtDesc c acc) []

/-- `CertificateService.getCertificates`: each filter is applied when its
field is JS-truthy (so an empty-string `userId`/`search` and a zero
`limit`/`offset` are skipped); then sort newest-first, then offset, then
limit; `total` is the pre-pagination count. -/
def getCertificates (store : CertStore) (filters : CertificateFilters) :
    List Certificate × Nat :=
  let certificates := mapValues store
  let certificates :=
    match filters.status with
    | none => certificates
    | some st => certificates.filter (fun cert => cert.status = st)
  let certificates :=
    if truthyStr filters.userId then
      certificates.filter (fun cert => cert.userId = filters.userId.getD [])
    else certificates
  let certificates :=
    if truthyStr filters.search then
      let searchTerm := jsToLower (filters.search.getD [])
      certificates.filter (fun cert => searchMatches cert searchTerm)
    else certificates
  let certificates :=
    match filters.dateFrom with
    | none => certificates
    | some df => certificates.filter (fun cert => df ≤ cert.createdAt)
  let certificates :=
    match filters.dateTo with
    | none => certificates
    | some dt => certificates.filter (fun cert => cert.createdAt ≤ dt)
  let certificates := sortByCreatedAtDesc certificates
  let total := certificates.length
  let certificates :=
    if truthyNum filters.offset then certificates.drop (filters.offset.getD 0)
    else certificates
  let certificates :=
    if truthyNum filters.limit then certificates.take (filters.limit.getD 0)
    else certificates
  (certificates, total)

/-- The statistics record returned by `getCertificateStatistics`. -/
structure CertificateStatistics where
  total : Nat
  issued : Nat
  draft : Nat
  revoked : Nat
  expired : Nat
deriving DecidableEq, Repr

/-- `CertificateService.getCertificateStatistics`: optional owner filter
(applied when `userId` is truthy), then counts by stored status, plus
`expired` counted from `expiresAt < now` regardless of status. -/
def getCertificateStatistics (store : CertStore) (userId : Option (List Char))
    (now : Nat) : CertificateStatistics :=
  let certificates := mapValues store
  let certificates :=
    if truthyStr userId then
      certificates.filter (fun cert => cert.userId = userId.getD [])
    else certificates
  { total := certificates.length
    issued := (certificates.filter (fun cert => cert.status = CertificateStatus.issued)).length
    draft := (certificates.filter (fun cert => cert.status = CertificateStatus.draft)).length
    revoked := (certificates.filter (fun cert => cert.status = CertificateStatus.revoked)).length
    expired := (certificates.filter (fun cert => isExpiredAt cert now)).length }

/-! ## Rate limiter (`createRateLimitMiddleware`) -/

/-- One entry of the middleware's `requests` map:
`{ count, resetTime }`. -/
structure RLEntry where
  count : Nat
  resetTime : Nat
deriving DecidableEq, Repr

/-- The `requests` map keyed by client ip, insertion ordered. -/
abbrev RLState := List (List Char × RLEntry)

/-- Outcome of one pass through the middleware: either `next()` is called,
or a 429 carrying the fixed code and `retryAfter` seconds is sent. -/
inductive RLResult where
  | allowed
  | rejected (code : List Char) (retryAfter : Nat)
deriving DecidableEq, Repr

/-- `Math.ceil(ms / 1000)` on a nonnegative integer number of
milliseconds. -/
def ceilDiv1000 (ms : Nat) : Nat :=
  (ms + 999) / 1000

/-- One request through the middleware returned by
`createRateLimitMiddleware(windowMs, max)`: sweep expired windows, then
start / increment / reject the caller's window. -/
def rlStep (windowMs maxReq : Nat) (st : RLState) (key : List Char) (now : Nat) :
    RLResult × RLState :=
  let st := st.filter (fun e => ¬ e.2.resetTime < now)
  match st.find? (fun e => e.1 = key) with
  | none =>
      (RLResult.allowed, st ++ [(key, ⟨1, now + windowMs⟩)])
  | some (_, requestData) =>
      if requestData.resetTime < now then
        (RLResult.allowed,
          st.map (fun e => if e.1 = key then (key, ⟨1, now + windowMs⟩) else e))
      else if requestData.count < maxReq then
        (RLResult.allowed,
          st.map (fun e => if e.1 = key then (key, ⟨requestData.count + 1, requestData.resetTime⟩) else e))
      else
        (RLResult.rejected "RATE_LIMIT_EXCEEDED".data
          (ceilDiv1000 (requestData.resetTime - now)), st)

/-- State after `n` requests from `key`, all at time `now`, starting from
the empty map. -/
def rlStateAfter (windowMs maxReq : Nat) (key : List Char) (now : Nat) : Nat → RLState
  | 0 => []
  | n + 1 => (rlStep windowMs maxReq (rlStateAfter windowMs maxReq key now n) key now).2

/-- Outcome of the `n`-th request (`n ≥ 1`) from `key`, all at time `now`,
starting from the empty map. -/
def rlResultAt (windowMs maxReq : Nat) (key : List Char) (now : Nat) (n : Nat) : RLResult :=
  (rlStep windowMs maxReq (rlStateAfter windowMs maxReq key now (n - 1)) key now).1

/-! ## Reset-token verification (`JwtService.verifyResetToken`) -/

/-- The `{id, type}` shape `verifyResetToken` decodes. -/
structure ResetPayload where
  id : Int
  type : List Char
deriving DecidableEq, Repr

/-- `JwtService.verifyResetToken`. The call
`jwt.verify(token, resetTokenSecret, {issuer, audience})` is the external
`jsonwebtoken` collaborator; it is abstracted as `jwtVerify`, which
returns `none` exactly when that call throws (bad signature, wrong
issuer/audience, expired, malformed). On a successful decode the service
additionally rejects any payload whose `type` is not `"reset"`. -/
def verifyResetToken (jwtVerify : List Char → Option ResetPayload)
    (token : List Char) : Option ResetPayload :=
  match jwtVerify token with
  | none => none
  | some decoded =>
      if ¬ decoded.type = "reset".data then none
      else some decoded

/-! ## Password strength (`SecurityService.validatePasswordStrength`) -/

/-- Result record of `validatePasswordStrength`. -/
structure PasswordStrengthResult where
  isValid : Bool
  errors : List (List Char)
  score : Nat
deriving DecidableEq, Repr

/-- The character class
`[!@#$%^&*()_+\-=\[\]{};':"\\|,.<>\/?]` of the special-character check,
by code point. -/
def specialChars : List Char :=
  [33, 64, 35, 36, 37, 94, 38, 42, 40, 41, 95, 43, 45, 61, 91, 93, 123,
   125, 59, 39, 58, 34, 92, 124, 44, 46, 60, 62, 47, 63].map Char.ofNat

/-- `/[A-Z]/.test(password)`. -/
def hasUppercase (password : List Char) : Bool :=
  password.any (fun c => 65 ≤ c.toNat ∧ c.toNat ≤ 90)

/-- `/[a-z]/.test(password)`. -/
def hasLowercase (password : List Char) : Bool :=
  password.any (fun c => 97 ≤ c.toNat ∧ c.toNat ≤ 122)

/-- `/\d/.test(password)`. -/
def hasDigit (password : List Char) : Bool :=
  password.any (fun c => 48 ≤ c.toNat ∧ c.toNat ≤ 57)

/-- The special-character test of `validatePasswordStrength`. -/
def hasSpecialChar (password : List Char) : Bool :=
  password.any (fun c => specialChars.contains c)

/-- `SecurityService.validatePasswordStrength`: five sequential checks,
each pushing one error message or adding one point. -/
def validatePasswordStrength (password : List Char) : PasswordStrengthResult :=
  let errors : List (List Char) := []
  let score : Nat := 0
  let errors := if password.length < 8 then
      errors ++ ["Password must be at least 8 characters long".data] else errors
  let score := if password.length < 8 then score else score + 1
  let errors := if ¬ hasUppercase password then
      errors ++ ["Password must contain at least one uppercase letter".data] else errors
  let score := if ¬ hasUppercase password then score else score + 1
  let errors := if ¬ hasLowercase password then
      errors ++ ["Password must contain at least one lowercase letter".data] else errors
  let score := if ¬ hasLowercase password then score else score + 1
  let errors := if ¬ hasDigit password then
      errors ++ ["Password must contain at least one number".data] else errors
  let score := if ¬ hasDigit password then score else score + 1
  let errors := if ¬ hasSpecialChar password then
      errors ++ ["Password must contain at least one special character".data] else errors
  let score := if ¬ hasSpecialChar password then score else score + 1
  { isValid := errors.length = 0
    errors := errors
    score := score }

/-! ## Certificate id generation (`generateCertificateId`) -/

/-- Digit characters of `Number.prototype.toString(36)`: `0`–`9` then
`a`–`z`. -/
def base36DigitChar (d : Nat) : Char :=
  if d < 10 then Char.ofNat (48 + d) else Char.ofNat (87 + d)

/-- Auxiliary base-36 rendering, most significant digit first; the first
argument is fuel, always called with at least the number of digits. -/
def toBase36Aux : Nat → Nat → List Char → List Char
  | 0, _, acc => acc
  | fuel + 1, n, acc =>
      if n = 0 then acc
      else toBase36Aux fuel (n / 36) (base36DigitChar (n % 36) :: acc)

/-- `n.toString(36)` for a nonnegative integer `n`, as `Date.now()` is
rendered. -/
def toBase36 (n : Nat) : List Char :=
  if n = 0 then ['0'] else toBase36Aux n n []

/-- `Math.random().toString(36)`: the drawn value is abstracted by its
(finite, shortest-form, no trailing zero) list of base-36 fractional
digits; `0` renders as `"0"`, anything else as `"0." ++ digits`. -/
def randToString36 (randDigits : List (Fin 36)) : List Char :=
  match randDigits with
  | [] => ['0']
  | ds => '0' :: '.' :: ds.map (fun d => base36DigitChar d.val)

/-- `CertificateService.generateCertificateId`: `Date.now()` is the
parameter `nowMs` and the `Math.random()` draw is `randDigits` (see
`randToString36`); `substring(2, 8)` is drop 2 then take 6, and the
result is upper-cased. -/
def generateCertificateId (nowMs : Nat) (randDigits : List (Fin 36)) : List Char :=
  let timestamp := toBase36 nowMs
  let random := ((randToString36 randDigits).drop 2).take 6
  ("CERT-".data ++ timestamp ++ "-".data ++ random).map jsToUpperChar

/-- A character admitted by `[0-9A-Z]`. -/
def isBase36UpperChar (c : Char) : Bool :=
  (48 ≤ c.toNat ∧ c.toNat ≤ 57) ∨ (65 ≤ c.toNat ∧ c.toNat ≤ 90)

/-- The pattern `CERT-[0-9A-Z]+-[0-9A-Z]{6}` as a whole-string property. -/
def matchesCertPattern (s : List Char) : Prop :=
  ∃ t r : List Char, t ≠ [] ∧ (∀ c ∈ t, isBase36UpperChar c) ∧
    r.length = 6 ∧ (∀ c ∈ r, isBase36UpperChar c) ∧
    s = "CERT-".data ++ t ++ ['-'] ++ r

/-! ## Theorems -/

/-- C10: `validatePasswordStrength` performs exactly five independent
checks (length ≥ 8, uppercase, lowercase, digit, special character); each
passing check adds one point to `score`, each failing check appends one
error message, and `isValid` holds iff all five pass, equivalently
`score = 5`, equivalently `errors = []`. -/
theorem validatePasswordStrength_five_checks (password : List Char) :
    (validatePasswordStrength password).score =
      (if 8 ≤ password.length then 1 else 0) + (if hasUppercase password then 1 else 0) +
      (if hasLowercase password then 1 else 0) + (if hasDigit password then 1 else 0) +
      (if hasSpecialChar password then 1 else 0) ∧
    (validatePasswordStrength password).errors.length + (validatePasswordStrength password).score = 5 ∧
    (validatePasswordStrength password).isValid =
      (decide (8 ≤ password.length) && hasUppercase password && hasLowercase password &&
        hasDigit password && hasSpecialChar password) ∧
    (validatePasswordStrength password).isValid = decide ((validatePasswordStrength password).score = 5) ∧
    (validatePasswordStrength password).isValid = (validatePasswordStrength password).errors.isEmpty := by
  rcases Nat.lt_or_ge password.length 8 with h1 | h1
  · have h1' : ¬ 8 ≤ password.length := by omega
    by_cases h2 : hasUppercase password <;> by_cases h3 : hasLowercase password <;>
      by_cases h4 : hasDigit password <;> by_cases h5 : hasSpecialChar password <;>
      simp [validatePasswordStrength, h1, h1', h2, h3, h4, h5]
  · have h1' : ¬ password.length < 8 := by omega
    by_cases h2 : hasUppercase password <;> by_cases h3 : hasLowercase password <;>
      by_cases h4 : hasDigit password <;> by_cases h5 : hasSpecialChar password <;>
      simp [validatePasswordStrength, h1, h1', h2, h3, h4, h5]

/-- C2: `verifyResetToken` returns `null` whenever the decoded payload's
`type` is not exactly `"reset"`, even when the underlying `jwt.verify`
succeeded, and any non-null return carries `type = "reset"`. -/
theorem verifyResetToken_type_guard (jwtVerify : List Char → Option ResetPayload)
    (token : List Char) :
    (∀ decoded, jwtVerify token = some decoded → ¬ decoded.type = "reset".data →
      verifyResetToken jwtVerify token = none) ∧
    (∀ decoded, verifyResetToken jwtVerify token = some decoded →
      decoded.type = "reset".data) := by
  constructor
  · intro d hd hty
    simp [verifyResetToken, hd, hty]
  · intro d hd
    unfold verifyResetToken at hd
    cases hjv : jwtVerify token with
    | none => rw [hjv] at hd; simp at hd
    | some p =>
        rw [hjv] at hd
        by_cases hty : p.type = "reset".data
        · simp [hty] at hd
          rw [← hd]
          exact hty
        · simp [hty] at hd

/-- Witness for C2: a well-formed access-shaped payload signed under the
reset secret (so `jwtVerify` succeeds) is rejected; a reset-typed payload
is returned and carries `type = "reset"`. -/
theorem verifyResetToken_type_guard_witness :
    verifyResetToken (fun _ => some ⟨1, "access".data⟩) "tok".data = none ∧
    verifyResetToken (fun _ => some ⟨1, "reset".data⟩) "tok".data = some ⟨1, "reset".data⟩ ∧
    (⟨1, "reset".data⟩ : ResetPayload).type = "reset".data := by
  refine ⟨?_, by decide, ?_⟩
  · exact (verifyResetToken_type_guard (fun _ => some ⟨1, "access".data⟩) "tok".data).1
      ⟨1, "access".data⟩ rfl (by decide)
  · exact (verifyResetToken_type_guard (fun _ => some ⟨1, "reset".data⟩) "tok".data).2
      ⟨1, "reset".data⟩ (by decide)

/-- C3: for an id absent from the store, every mutating operation reports
not-found (`null` from update/issue/revoke, `false` from delete) and
leaves the store exactly as it was; issue also sends no email. -/
theorem notFound_mutations_frame (store : CertStore) (id : List Char)
    (input : CertificateUpdateInput) (reason : Option (List Char)) (now : Nat)
    (h : mapGet store id = none) :
    updateCertificate store id input now = (none, store) ∧
    issueCertificate store id now = (none, store, []) ∧
    revokeCertificate store id reason now = (none, store) ∧
    deleteCertificate store id = (false, store) := by
  refine ⟨?_, ?_, ?_, ?_⟩ <;>
    simp [updateCertificate, issueCertificate, revokeCertificate, deleteCertificate, h]

/-- Witness for C3 at the empty store and a concrete id. -/
theorem notFound_mutations_frame_witness :
    updateCertificate [] "missing".data ⟨none, none, none, none, none, none, none, none⟩ 7 =
      (none, []) ∧
    issueCertificate [] "missing".data 7 = (none, [], []) ∧
    revokeCertificate [] "missing".data (some "r".data) 7 = (none, []) ∧
    deleteCertificate [] "missing".data = (false, []) :=
  notFound_mutations_frame [] "missing".data ⟨none, none, none, none, none, none, none, none⟩
    (some "r".data) 7 (by decide)

/-- A concrete certificate with a chosen status and `expiresAt`, for
witnesses and counterexamples. -/
def mkCert (st : CertificateStatus) (expAt : Option Nat) : Certificate :=
  { id := "id-1".data
    certificateId := "CERT-1".data
    userId := "user-1".data
    name := "Course".data
    description := none
    type := CertificateType.completion
    status := st
    recipientName := none
    recipientEmail := none
    issueDate := none
    expiryDate := none
    issuedAt := none
    expiresAt := expAt
    revokedAt := none
    revocationReason := none
    metadata := []
    createdAt := 0
    updatedAt := 0 }

/-- C1: `verifyCertificate` evaluates its checks in strict priority order
with first match winning: not-found, then revoked, then draft, then
expiry, then valid. A revoked certificate past its expiry reports the
revocation error and a draft certificate past its expiry reports the
not-yet-issued error, since the expiry test is reached only for other
statuses. -/
theorem verifyCertificate_priority (store : CertStore) (cid : List Char) (now : Nat) :
    (getCertificateByCertificateId store cid = none →
      verifyCertificate store cid now =
        ⟨false, none, some "Certificate not found".data⟩) ∧
    (∀ c, getCertificateByCertificateId store cid = some c →
      ((c.status = CertificateStatus.revoked →
        verifyCertificate store cid now =
          ⟨false, some c, some "Certificate has been revoked".data⟩) ∧
       (c.status = CertificateStatus.draft →
        verifyCertificate store cid now =
          ⟨false, some c, some "Certificate has not been issued yet".data⟩) ∧
       (¬ c.status = CertificateStatus.revoked → ¬ c.status = CertificateStatus.draft →
        isExpiredAt c now = true →
        verifyCertificate store cid now =
          ⟨false, some c, some "Certificate has expired".data⟩) ∧
       (¬ c.status = CertificateStatus.revoked → ¬ c.status = CertificateStatus.draft →
        isExpiredAt c now = false →
        verifyCertificate store cid now = ⟨true, some c, none⟩))) := by
  constructor
  · intro h
    simp [verifyCertificate, h]
  · intro c hc
    refine ⟨?_, ?_, ?_, ?_⟩
    · intro hrev
      simp [verifyCertificate, hc, hrev]
    · intro hdr
      have hrev : ¬ c.status = CertificateStatus.revoked := by
        rw [hdr]
        simp
      simp [verifyCertificate, hc, hdr, hrev]
    · intro hrev hdr hexp
      simp [verifyCertificate, hc, hrev, hdr, hexp]
    · intro hrev hdr hexp
      simp [verifyCertificate, hc, hrev, hdr, hexp]

/-- Witness for C1: a certificate that is both revoked and past its
`expiresAt` reports the revocation error, and a draft one past its
`expiresAt` reports the not-yet-issued error. -/
theorem verifyCertificate_priority_witness :
    verifyCertificate [("id-1".data, mkCert CertificateStatus.revoked (some 5))]
        "CERT-1".data 10 =
      ⟨false, some (mkCert CertificateStatus.revoked (some 5)),
        some "Certificate has been revoked".data⟩ ∧
    verifyCertificate [("id-1".data, mkCert CertificateStatus.draft (some 5))]
        "CERT-1".data 10 =
      ⟨false, some (mkCert CertificateStatus.draft (some 5)),
        some "Certificate has not been issued yet".data⟩ :=
  ⟨((verifyCertificate_priority [("id-1".data, mkCert CertificateStatus.revoked (some 5))]
      "CERT-1".data 10).2 (mkCert CertificateStatus.revoked (some 5)) (by decide)).1 (by decide),
   (((verifyCertificate_priority [("id-1".data, mkCert CertificateStatus.draft (some 5))]
      "CERT-1".data 10).2 (mkCert CertificateStatus.draft (some 5)) (by decide)).2.1 (by decide))⟩

/-- The owner filter of `getCertificateStatistics` (applied when `userId`
is JS-truthy). -/
def ownerFiltered (store : CertStore) (userId : Option (List Char)) : List Certificate :=
  if truthyStr userId then
    (mapValues store).filter (fun cert => cert.userId = userId.getD [])
  else mapValues store

/-- C9: `getCertificateStatistics` returns the size of the
(optionally owner-filtered) list as `total`, the counts of the stored
statuses as `issued`/`draft`/`revoked`, and as `expired` the count of
certificates whose `expiresAt` is present and before `now` regardless of
stored status — so an issued certificate past its expiry contributes to
both `issued` and `expired`. -/
theorem getCertificateStatistics_spec (store : CertStore) (userId : Option (List Char))
    (now : Nat) :
    (getCertificateStatistics store userId now).total = (ownerFiltered store userId).length ∧
    (getCertificateStatistics store userId now).issued =
      (ownerFiltered store userId).countP (fun c => c.status = CertificateStatus.issued) ∧
    (getCertificateStatistics store userId now).draft =
      (ownerFiltered store userId).countP (fun c => c.status = CertificateStatus.draft) ∧
    (getCertificateStatistics store userId now).revoked =
      (ownerFiltered store userId).countP (fun c => c.status = CertificateStatus.revoked) ∧
    (getCertificateStatistics store userId now).expired =
      (ownerFiltered store userId).countP (fun c => isExpiredAt c now) ∧
    (∀ c : Certificate, isExpiredAt c now = true ↔ ∃ e, c.expiresAt = some e ∧ e < now) ∧
    (∀ c ∈ ownerFiltered store userId, c.status = CertificateStatus.issued →
      isExpiredAt c now = true →
      1 ≤ (getCertificateStatistics store userId now).issued ∧
      1 ≤ (getCertificateStatistics store userId now).expired) := by
  refine ⟨?_, ?_, ?_, ?_, ?_, ?_, ?_⟩
  · simp [getCertificateStatistics, ownerFiltered]
  · simp [getCertificateStatistics, ownerFiltered, List.countP_eq_length_filter]
  · simp [getCertificateStatistics, ownerFiltered, List.countP_eq_length_filter]
  · simp [getCertificateStatistics, ownerFiltered, List.countP_eq_length_filter]
  · simp [getCertificateStatistics, ownerFiltered, List.countP_eq_length_filter]
  · intro c
    cases h : c.expiresAt with
    | none => simp [isExpiredAt, h]
    | some e => simp [isExpiredAt, h]
  · intro c hc hst hexp
    constructor
    · have : 0 < (getCertificateStatistics store userId now).issued := by
        have h1 : (getCertificateStatistics store userId now).issued =
            (ownerFiltered store userId).countP (fun c => c.status = CertificateStatus.issued) := by
          simp [getCertificateStatistics, ownerFiltered, List.countP_eq_length_filter]
        rw [h1, List.countP_pos_iff]
        exact ⟨c, hc, by simp [hst]⟩
      omega
    · have : 0 < (getCertificateStatistics store userId now).expired := by
        have h1 : (getCertificateStatistics store userId now).expired =
            (ownerFiltered store userId).countP (fun c => isExpiredAt c now) := by
          simp [getCertificateStatistics, ownerFiltered, List.countP_eq_length_filter]
        rw [h1, List.countP_pos_iff]
        exact ⟨c, hc, by simp [hexp]⟩
      omega

/-- Replacing under a key that is found afterwards: `find?` over the
in-place rewrite yields the new entry exactly when the key occurs. -/
lemma find?_map_set (m : CertStore) (k : List Char) (v : Certificate) :
    (m.map (fun e => if e.1 = k then (k, v) else e)).find? (fun e => e.1 = k) =
      if m.any (fun e => e.1 = k) then some (k, v) else none := by
  induction m with
  | nil => rfl
  | cons e t ih =>
    by_cases he : e.1 = k
    · rw [List.map_cons, if_pos he, List.any_cons,
        List.find?_cons_of_pos _ (by simp), if_pos (by simp [he])]
    · rw [List.map_cons, if_neg he, List.any_cons,
        List.find?_cons_of_neg _ (by simp [he]), ih]
      by_cases ht : t.any (fun e => e.1 = k)
      · rw [if_pos ht, if_pos (by simp [he, ht])]
      · rw [if_neg ht, if_neg (by simp [he, ht])]

/-- `find?` misses every list whose entries all fail the key test. -/
lemma find?_none_of_not_any (m : CertStore) (k : List Char)
    (h : m.any (fun e => e.1 = k) = false) :
    m.find? (fun e => e.1 = k) = none := by
  induction m with
  | nil => rfl
  | cons e t ih =>
    rw [List.any_cons] at h
    rcases Bool.or_eq_false_iff.mp h with ⟨h1, h2⟩
    rw [List.find?_cons_of_neg _ (by simp [h1]), ih h2]

/-- Appending a fresh entry makes it the one `find?` returns when no
earlier entry has the key. -/
lemma find?_append_single (m : CertStore) (k : List Char) (v : Certificate)
    (h : m.any (fun e => e.1 = k) = false) :
    (m ++ [(k, v)]).find? (fun e => e.1 = k) = some (k, v) := by
  induction m with
  | nil => rw [List.nil_append, List.find?_cons_of_pos _ (by simp)]
  | cons e t ih =>
    rw [List.any_cons] at h
    rcases Bool.or_eq_false_iff.mp h with ⟨h1, h2⟩
    rw [List.cons_append, List.find?_cons_of_neg _ (by simp [h1]), ih h2]

/-- `Map.set` then `Map.get` of the same key returns the stored value. -/
lemma mapGet_mapSet_self (m : CertStore) (k : List Char) (v : Certificate) :
    mapGet (mapSet m k v) k = some v := by
  unfold mapGet mapSet
  by_cases h : m.any (fun e => e.1 = k)
  · rw [if_pos h, find?_map_set, if_pos h]
    rfl
  · rw [if_neg h, find?_append_single m k v (Bool.eq_false_iff.mpr h)]
    rfl

/-- Values after `Map.set` are the new value or old values. -/
lemma mem_mapValues_mapSet (m : CertStore) (k : List Char) (v c : Certificate)
    (hc : c ∈ mapValues (mapSet m k v)) : c = v ∨ c ∈ mapValues m := by
  unfold mapValues
  unfold mapSet mapValues at hc
  by_cases h : m.any (fun e => e.1 = k)
  · rw [if_pos h, List.map_map] at hc
    rcases List.mem_map.mp hc with ⟨e, he, hec⟩
    by_cases hek : e.1 = k
    · left
      rw [← hec]
      simp [hek]
    · right
      rw [← hec]
      exact List.mem_map.mpr ⟨e, he, by simp [hek]⟩
  · rw [if_neg h, List.map_append] at hc
    rcases List.mem_append.mp hc with hm | hv
    · exact Or.inr hm
    · left
      simpa using hv

/-- Values after `Map.delete` were already values. -/
lemma mem_mapValues_mapDelete (m : CertStore) (k : List Char) (c : Certificate)
    (hc : c ∈ mapValues (mapDelete m k)) : c ∈ mapValues m := by
  unfold mapValues
  unfold mapDelete mapValues at hc
  rcases List.mem_map.mp hc with ⟨e, he, hec⟩
  exact List.mem_map.mpr ⟨e, List.mem_of_mem_filter he, hec⟩

/-- A value returned by `Map.get` is among the map's values. -/
lemma mapGet_mem_mapValues (m : CertStore) (k : List Char) (c : Certificate)
    (h : mapGet m k = some c) : c ∈ mapValues m := by
  unfold mapGet at h
  cases hf : m.find? (fun e => e.1 = k) with
  | none => rw [hf] at h; simp at h
  | some e =>
      rw [hf] at h
      simp at h
      exact List.mem_map.mpr ⟨e, List.mem_of_find?_eq_some hf, h⟩

/-- The stores reachable from the empty store through the public
certificate operations. -/
inductive ReachableStore : CertStore → Prop where
  | empty : ReachableStore []
  | create (s : CertStore) (input : CertificateCreateInput)
      (freshId freshCertId : List Char) (now : Nat) :
      ReachableStore s → ReachableStore (createCertificate s input freshId freshCertId now).2
  | update (s : CertStore) (id : List Char) (input : CertificateUpdateInput) (now : Nat) :
      ReachableStore s → ReachableStore (updateCertificate s id input now).2
  | issue (s : CertStore) (id : List Char) (now : Nat) :
      ReachableStore s → ReachableStore (issueCertificate s id now).2.1
  | revoke (s : CertStore) (id : List Char) (reason : Option (List Char)) (now : Nat) :
      ReachableStore s → ReachableStore (revokeCertificate s id reason now).2
  | delete (s : CertStore) (id : List Char) :
      ReachableStore s → ReachableStore (deleteCertificate s id).2

/-- No operation ever assigns `expiresAt`, so it stays absent in every
reachable store. -/
lemma reachable_no_expiresAt (s : CertStore) (h : ReachableStore s) :
    ∀ c ∈ mapValues s, c.expiresAt = none := by
  induction h with
  | empty =>
      intro c hc
      simp [mapValues] at hc
  | create s input freshId freshCertId now _ ih =>
      intro c hc
      simp only [createCertificate] at hc
      rcases mem_mapValues_mapSet _ _ _ _ hc with hcv | hcm
      · rw [hcv]
      · exact ih c hcm
  | update s id input now _ ih =>
      intro c hc
      unfold updateCertificate at hc
      cases hg : mapGet s id with
      | none => rw [hg] at hc; exact ih c hc
      | some c0 =>
          rw [hg] at hc
          rcases mem_mapValues_mapSet _ _ _ _ hc with hcv | hcm
          · rw [hcv]
            show c0.expiresAt = none
            exact ih c0 (mapGet_mem_mapValues s id c0 hg)
          · exact ih c hcm
  | issue s id now _ ih =>
      intro c hc
      unfold issueCertificate at hc
      cases hg : mapGet s id with
      | none => rw [hg] at hc; exact ih c hc
      | some c0 =>
          rw [hg] at hc
          rcases mem_mapValues_mapSet _ _ _ _ hc with hcv | hcm
          · rw [hcv]
            show c0.expiresAt = none
            exact ih c0 (mapGet_mem_mapValues s id c0 hg)
          · exact ih c hcm
  | revoke s id reason now _ ih =>
      intro c hc
      unfold revokeCertificate at hc
      cases hg : mapGet s id with
      | none => rw [hg] at hc; exact ih c hc
      | some c0 =>
          rw [hg] at hc
          rcases mem_mapValues_mapSet _ _ _ _ hc with hcv | hcm
          · rw [hcv]
            show c0.expiresAt = none
            exact ih c0 (mapGet_mem_mapValues s id c0 hg)
          · exact ih c hcm
  | delete s id _ ih =>
      intro c hc
      unfold deleteCertificate at hc
      cases hg : mapGet s id with
      | none => rw [hg] at hc; exact ih c hc
      | some c0 =>
          rw [hg] at hc
          exact ih c (mem_mapValues_mapDelete _ _ _ hc)

/-- C4: no public operation sets `expiresAt`, so in every store reachable
from the empty store every certificate has `expiresAt` absent,
`verifyCertificate` can never answer "Certificate has expired", and
`getCertificateStatistics` always reports `expired = 0`. -/
theorem expiresAt_never_set (s : CertStore) (h : ReachableStore s) :
    (∀ c ∈ mapValues s, c.expiresAt = none) ∧
    (∀ cid now, (verifyCertificate s cid now).error ≠ some "Certificate has expired".data) ∧
    (∀ userId now, (getCertificateStatistics s userId now).expired = 0) := by
  have hinv := reachable_no_expiresAt s h
  refine ⟨hinv, ?_, ?_⟩
  · intro cid now
    unfold verifyCertificate
    cases hf : getCertificateByCertificateId s cid with
    | none =>
        show (CertificateValidationResult.mk false none
          (some "Certificate not found".data)).error ≠ some "Certificate has expired".data
        decide
    | some c =>
        have hmem : c ∈ mapValues s :=
          List.mem_of_find?_eq_some hf
        have hexp : isExpiredAt c now = false := by
          simp [isExpiredAt, hinv c hmem]
        by_cases hrev : c.status = CertificateStatus.revoked
        · simp [hrev]
        · by_cases hdr : c.status = CertificateStatus.draft
          · simp [hrev, hdr]
          · simp [hrev, hdr, hexp]
  · intro userId now
    unfold getCertificateStatistics
    have hall : ∀ c ∈ (if truthyStr userId then
        (mapValues s).filter (fun cert => cert.userId = userId.getD []) else mapValues s),
        isExpiredAt c now = false := by
      intro c hc
      have hmem : c ∈ mapValues s := by
        by_cases ht : truthyStr userId
        · rw [if_pos ht] at hc
          exact List.mem_of_mem_filter hc
        · rw [if_neg ht] at hc
          exact hc
      simp [isExpiredAt, hinv c hmem]
    by_cases ht : truthyStr userId
    · rw [if_pos ht] at hall
      simp only [ht, if_true]
      rw [List.filter_eq_nil_iff.mpr (by intro a ha; simp [hall a ha])]
      rfl
    · rw [if_neg ht] at hall
      simp only [ht, if_false]
      rw [List.filter_eq_nil_iff.mpr (by intro a ha; simp [hall a ha])]
      rfl

/-- A concrete create input for witnesses. -/
def sampleInput : CertificateCreateInput :=
  { userId := "user-1".data
    name := "Course A".data
    description := none
    type := CertificateType.completion
    recipientName := none
    recipientEmail := none
    issueDate := none
    expiryDate := some 1000
    metadata := [] }

/-- Witness for C4: after one create (even with an `expiryDate`), the
store satisfies all three conclusions at concrete arguments. -/
theorem expiresAt_never_set_witness :
    (∀ c ∈ mapValues (createCertificate [] sampleInput "id-1".data "CERT-1".data 0).2,
      c.expiresAt = none) ∧
    (verifyCertificate (createCertificate [] sampleInput "id-1".data "CERT-1".data 0).2
        "CERT-1".data 2000).error ≠ some "Certificate has expired".data ∧
    (getCertificateStatistics (createCertificate [] sampleInput "id-1".data "CERT-1".data 0).2
        none 2000).expired = 0 := by
  have h := expiresAt_never_set _ (ReachableStore.create [] sampleInput "id-1".data
    "CERT-1".data 0 ReachableStore.empty)
  exact ⟨h.1, h.2.1 "CERT-1".data 2000, h.2.2 none 2000⟩

/-- C8: `updateCertificate` on a stored certificate changes neither its
`status` nor its `certificateId` nor its internal `id`: the returned
certificate and the one stored under the id afterwards carry the old
values of those fields. -/
theorem updateCertificate_preserves_identity (store : CertStore) (id : List Char)
    (input : CertificateUpdateInput) (now : Nat) (c : Certificate)
    (h : mapGet store id = some c) :
    ∃ c', updateCertificate store id input now = (some c', mapSet store id c') ∧
      c'.status = c.status ∧ c'.certificateId = c.certificateId ∧ c'.id = c.id ∧
      mapGet (updateCertificate store id input now).2 id = some c' := by
  refine ⟨{ applyUpdate c input with updatedAt := now }, ?_, ?_, ?_, ?_, ?_⟩
  · simp [updateCertificate, h]
  · simp [applyUpdate]
  · simp [applyUpdate]
  · simp [applyUpdate]
  · simp [updateCertificate, h, mapGet_mapSet_self]

/-- Witness for C8: updating the name of a stored draft certificate keeps
its status, public id and internal id. -/
theorem updateCertificate_preserves_identity_witness :
    ∃ c', updateCertificate [("id-1".data, mkCert CertificateStatus.draft none)]
        "id-1".data ⟨some "New".data, none, none, none, none, none, none, none⟩ 9 =
        (some c',
          mapSet [("id-1".data, mkCert CertificateStatus.draft none)] "id-1".data c') ∧
      c'.status = (mkCert CertificateStatus.draft none).status ∧
      c'.certificateId = (mkCert CertificateStatus.draft none).certificateId ∧
      c'.id = (mkCert CertificateStatus.draft none).id ∧
      mapGet (updateCertificate [("id-1".data, mkCert CertificateStatus.draft none)]
        "id-1".data ⟨some "New".data, none, none, none, none, none, none, none⟩ 9).2
        "id-1".data = some c' :=
  updateCertificate_preserves_identity [("id-1".data, mkCert CertificateStatus.draft none)]
    "id-1".data ⟨some "New".data, none, none, none, none, none, none, none⟩ 9
    (mkCert CertificateStatus.draft none) (by decide)

/-- Witness for C9: one issued certificate with `expiresAt = 5` at
`now = 10` counts toward both `issued` and `expired`. -/
theorem getCertificateStatistics_spec_witness :
    1 ≤ (getCertificateStatistics [("id-1".data, mkCert CertificateStatus.issued (some 5))]
          none 10).issued ∧
    1 ≤ (getCertificateStatistics [("id-1".data, mkCert CertificateStatus.issued (some 5))]
          none 10).expired :=
  (getCertificateStatistics_spec [("id-1".data, mkCert CertificateStatus.issued (some 5))]
      none 10).2.2.2.2.2.2 (mkCert CertificateStatus.issued (some 5)) (by decide)
      (by decide) (by decide)

/-- Every rendered base-36 digit upper-cases into `[0-9A-Z]`. -/
lemma base36DigitChar_upper :
    ∀ d : Fin 36, isBase36UpperChar (jsToUpperChar (base36DigitChar d.val)) = true := by
  decide

/-- Characters produced by `toBase36Aux` upper-case into `[0-9A-Z]`
(provided the accumulator's do). -/
lemma toBase36Aux_chars :
    ∀ (fuel n : Nat) (acc : List Char),
      (∀ c ∈ acc, isBase36UpperChar (jsToUpperChar c) = true) →
      ∀ c ∈ toBase36Aux fuel n acc, isBase36UpperChar (jsToUpperChar c) = true := by
  intro fuel
  induction fuel with
  | zero =>
      intro n acc hacc c hc
      exact hacc c hc
  | succ fuel ih =>
      intro n acc hacc c hc
      rw [toBase36Aux] at hc
      split at hc
      · exact hacc c hc
      · refine ih (n / 36) _ ?_ c hc
        intro c' hc'
        rcases List.mem_cons.mp hc' with h1 | h2
        · rw [h1]
          exact base36DigitChar_upper ⟨n % 36, Nat.mod_lt _ (by omega)⟩
        · exact hacc c' h2

/-- `toBase36Aux` never shrinks the accumulator. -/
lemma toBase36Aux_length :
    ∀ (fuel n : Nat) (acc : List Char), acc.length ≤ (toBase36Aux fuel n acc).length := by
  intro fuel
  induction fuel with
  | zero =>
      intro n acc
      exact Nat.le_refl _
  | succ fuel ih =>
      intro n acc
      rw [toBase36Aux]
      split
      · exact Nat.le_refl _
      · calc acc.length ≤ (base36DigitChar (n % 36) :: acc).length := by simp
          _ ≤ _ := ih (n / 36) _

/-- `n.toString(36)` is never the empty string. -/
lemma toBase36_ne_nil (n : Nat) : toBase36 n ≠ [] := by
  unfold toBase36
  split
  · simp
  · next h =>
    intro hnil
    have h1 : (1 : Nat) ≤ (toBase36 n).length := by
      unfold toBase36
      rw [if_neg h]
      cases n with
      | zero => exact absurd rfl h
      | succ m =>
          rw [toBase36Aux, if_neg h]
          calc (1 : Nat) = [base36DigitChar ((m + 1) % 36)].length := by simp
            _ ≤ _ := toBase36Aux_length m ((m + 1) / 36) _
    rw [toBase36, if_neg h] at h1
    rw [hnil] at h1
    simp at h1

/-- Every character of `n.toString(36)` upper-cases into `[0-9A-Z]`. -/
lemma toBase36_chars (n : Nat) :
    ∀ c ∈ toBase36 n, isBase36UpperChar (jsToUpperChar c) = true := by
  unfold toBase36
  split
  · intro c hc
    simp at hc
    rw [hc]
    decide
  · intro c hc
    exact toBase36Aux_chars n n [] (by intro c' hc'; simp at hc') c hc

/-- `substring(2, 8)` of the random rendering is the first six fractional
digits, whether or not the expansion terminates early. -/
lemma randToString36_sub (randDigits : List (Fin 36)) :
    ((randToString36 randDigits).drop 2).take 6 =
      (randDigits.map (fun d => base36DigitChar d.val)).take 6 := by
  cases randDigits with
  | nil => rfl
  | cons d ds => rfl

/-- C5 (amended): every generated certificate id is the literal `CERT-`,
the millisecond timestamp in base 36, a hyphen, and the first up-to-six
base-36 fractional digits of the random draw, all upper-cased — so it
matches `CERT-[0-9A-Z]+-[0-9A-Z]{0,6}`, and matches the claimed
`CERT-[0-9A-Z]+-[0-9A-Z]{6}` exactly when the draw's base-36 expansion
has at least six digits. -/
theorem generateCertificateId_format (nowMs : Nat) (randDigits : List (Fin 36)) :
    ∃ t r : List Char, t ≠ [] ∧ (∀ c ∈ t, isBase36UpperChar c) ∧
      (∀ c ∈ r, isBase36UpperChar c) ∧ r.length = min 6 randDigits.length ∧
      generateCertificateId nowMs randDigits = "CERT-".data ++ t ++ ['-'] ++ r ∧
      (6 ≤ randDigits.length → matchesCertPattern (generateCertificateId nowMs randDigits)) := by
  have htne : (toBase36 nowMs).map jsToUpperChar ≠ [] := by
    intro hnil
    exact toBase36_ne_nil nowMs (List.map_eq_nil_iff.mp hnil)
  have htc : ∀ c ∈ (toBase36 nowMs).map jsToUpperChar, isBase36UpperChar c := by
    intro c hc
    rcases List.mem_map.mp hc with ⟨c0, hc0, hc1⟩
    rw [← hc1]
    exact toBase36_chars nowMs c0 hc0
  have hrc : ∀ c ∈ ((randDigits.map (fun d => base36DigitChar d.val)).take 6).map jsToUpperChar,
      isBase36UpperChar c := by
    intro c hc
    rcases List.mem_map.mp hc with ⟨c0, hc0, hc1⟩
    rcases List.mem_map.mp (List.mem_of_mem_take hc0) with ⟨d, _, hd1⟩
    rw [← hc1, ← hd1]
    exact base36DigitChar_upper d
  have hrlen : (((randDigits.map (fun d => base36DigitChar d.val)).take 6).map jsToUpperChar).length =
      min 6 randDigits.length := by
    simp
  have heq : generateCertificateId nowMs randDigits =
      "CERT-".data ++ (toBase36 nowMs).map jsToUpperChar ++ ['-'] ++
        ((randDigits.map (fun d => base36DigitChar d.val)).take 6).map jsToUpperChar := by
    unfold generateCertificateId
    rw [randToString36_sub]
    rw [List.map_append, List.map_append, List.map_append]
    have h1 : "CERT-".data.map jsToUpperChar = "CERT-".data := by decide
    have h2 : "-".data.map jsToUpperChar = "-".data := by decide
    rw [h1, h2]
  refine ⟨(toBase36 nowMs).map jsToUpperChar,
    ((randDigits.map (fun d => base36DigitChar d.val)).take 6).map jsToUpperChar,
    htne, htc, hrc, hrlen, heq, ?_⟩
  intro h6
  refine ⟨(toBase36 nowMs).map jsToUpperChar,
    ((randDigits.map (fun d => base36DigitChar d.val)).take 6).map jsToUpperChar,
    htne, htc, ?_, hrc, heq⟩
  rw [hrlen]
  omega

/-- Witness for C5 (amended) at a concrete timestamp and a six-digit
random draw. -/
theorem generateCertificateId_format_witness :
    generateCertificateId 1700000000000
        [(18 : Fin 36), (0 : Fin 36), (35 : Fin 36), (1 : Fin 36), (2 : Fin 36), (3 : Fin 36)] =
      "CERT-LOYW3V28-I0Z123".data ∧
    matchesCertPattern (generateCertificateId 1700000000000
        [(18 : Fin 36), (0 : Fin 36), (35 : Fin 36), (1 : Fin 36), (2 : Fin 36), (3 : Fin 36)]) := by
  constructor
  · decide
  · rcases generateCertificateId_format 1700000000000
      [(18 : Fin 36), (0 : Fin 36), (35 : Fin 36), (1 : Fin 36), (2 : Fin 36), (3 : Fin 36)]
      with ⟨t, r, _, _, _, _, _, hfull⟩
    exact hfull (by decide)

/-- Counterexample to C5 as stated: with the (possible) random draw whose
base-36 expansion is the single digit `i` — `Math.random() = 0.5`
renders as `"0.i"` — `substring(2, 8)` yields one character, not six, so
the generated id `CERT-1-I` does not match `CERT-[0-9A-Z]+-[0-9A-Z]{6}`. -/
theorem generateCertificateId_pattern_counterexample :
    generateCertificateId 1 [(18 : Fin 36)] = "CERT-1-I".data ∧
    ¬ matchesCertPattern (generateCertificateId 1 [(18 : Fin 36)]) := by
  constructor
  · decide
  · intro hp
    rcases hp with ⟨t, r, htne, _, hrlen, _, heq⟩
    have hlen : (generateCertificateId 1 [(18 : Fin 36)]).length = 8 := by decide
    rw [heq] at hlen
    simp [List.length_append, hrlen] at hlen

/-- For `max ≥ 1`, the state after `n ≤ max` same-window requests from one
key is a single window entry counting `n`. -/
lemma rlStateAfter_eq (windowMs maxReq : Nat) (key : List Char) (now : Nat) :
    ∀ n, n ≤ maxReq →
      rlStateAfter windowMs maxReq key now n =
        if n = 0 then [] else [(key, ⟨n, now + windowMs⟩)] := by
  intro n
  induction n with
  | zero =>
      intro _
      rfl
  | succ m ih =>
      intro hle
      have hm : m ≤ maxReq := by omega
      rw [rlStateAfter, ih hm]
      cases m with
      | zero => simp [rlStep]
      | succ p =>
          rw [if_neg (by omega)]
          have hkeep : ¬ (now + windowMs < now) := by omega
          have hcnt : p + 1 < maxReq := by omega
          simp [rlStep, hkeep, hcnt]

/-- C6 (amended): the fixed-window limiter, for `max ≥ 1`, allows requests
1 through `max` of a key within one window and rejects request `max + 1`
with the fixed code and `retryAfter = ceil((resetTime - now)/1000)`
(which is `ceil(windowMs/1000)` when the requests share a timestamp); and
every rejection `rlStep` ever produces carries that code and that
`retryAfter`, coming from a live window at its counter cap. -/
theorem rateLimiter_fixed_window (windowMs maxReq : Nat) (key : List Char) (now : Nat)
    (hmax : 1 ≤ maxReq) :
    (∀ i, 1 ≤ i → i ≤ maxReq → rlResultAt windowMs maxReq key now i = RLResult.allowed) ∧
    rlResultAt windowMs maxReq key now (maxReq + 1) =
      RLResult.rejected "RATE_LIMIT_EXCEEDED".data (ceilDiv1000 windowMs) ∧
    (∀ (st : RLState) (k : List Char) (t : Nat) (code : List Char) (retryAfter : Nat),
      (rlStep windowMs maxReq st k t).1 = RLResult.rejected code retryAfter →
      code = "RATE_LIMIT_EXCEEDED".data ∧
      ∃ e, (st.filter (fun x => ¬ x.2.resetTime < t)).find? (fun x => x.1 = k) = some e ∧
        ¬ e.2.resetTime < t ∧ ¬ e.2.count < maxReq ∧
        retryAfter = ceilDiv1000 (e.2.resetTime - t)) := by
  have hkeep : ¬ (now + windowMs < now) := by omega
  refine ⟨?_, ?_, ?_⟩
  · intro i h1 h2
    unfold rlResultAt
    rw [rlStateAfter_eq windowMs maxReq key now (i - 1) (by omega)]
    cases hi : i - 1 with
    | zero => simp [rlStep]
    | succ p =>
        rw [if_neg (by omega)]
        have hcnt : p + 1 < maxReq := by omega
        simp [rlStep, hkeep, hcnt]
  · unfold rlResultAt
    rw [Nat.add_sub_cancel,
      rlStateAfter_eq windowMs maxReq key now maxReq (le_refl _), if_neg (by omega)]
    have hcnt : ¬ (maxReq < maxReq) := by omega
    simp [rlStep, hkeep, hcnt, ceilDiv1000, Nat.add_sub_cancel_left]
  · intro st k t code retryAfter hrej
    simp only [rlStep] at hrej
    cases hf : (st.filter (fun x => ¬ x.2.resetTime < t)).find? (fun x => x.1 = k) with
    | none =>
        rw [hf] at hrej
        simp at hrej
    | some e =>
        rw [hf] at hrej
        by_cases hexp : e.2.resetTime < t
        · simp [hexp] at hrej
        · by_cases hcnt : e.2.count < maxReq
          · simp [hexp, hcnt] at hrej
          · simp [hexp, hcnt] at hrej
            exact ⟨hrej.1.symm, e, rfl, hexp, hcnt, hrej.2.symm⟩

/-- Witness for C6 (amended): with `windowMs = 1000, max = 2`, requests
1 and 2 from one key are allowed and request 3 is rejected with the fixed
code and `retryAfter = 1`. -/
theorem rateLimiter_fixed_window_witness :
    rlResultAt 1000 2 "a".data 0 1 = RLResult.allowed ∧
    rlResultAt 1000 2 "a".data 0 2 = RLResult.allowed ∧
    rlResultAt 1000 2 "a".data 0 3 =
      RLResult.rejected "RATE_LIMIT_EXCEEDED".data 1 := by
  have h := rateLimiter_fixed_window 1000 2 "a".data 0 (by decide)
  exact ⟨h.1 1 (by decide) (by decide), h.1 2 (by decide) (by decide), h.2.1⟩

/-- Counterexample to C6 as stated: with `max = 0` the first request of a
fresh window is still allowed (a new window always admits its first
request with `count = 1`), while the claim's consequence says request
`max + 1 = 1` is rejected. -/
theorem rateLimiter_maxZero_counterexample :
    rlResultAt 1000 0 "a".data 0 1 = RLResult.allowed ∧
    rlResultAt 1000 0 "a".data 0 1 ≠
      RLResult.rejected "RATE_LIMIT_EXCEEDED".data 1 := by
  decide

/-- Modelled from the spec's words for comparison with `getCertificates`:
"filters compose conjunctively — status exact match, ownerId exact match,
search case-insensitive substring ..., dateFrom/dateTo bound createdAt
inclusive. Results are always sorted by createdAt descending before
pagination (offset then limit) is applied; total reflects the filtered
(pre-pagination) count." Every supplied filter is applied. -/
def specGetCertificates (store : CertStore) (filters : CertificateFilters) :
    List Certificate × Nat :=
  let certs := mapValues store
  let certs := match filters.status with
    | none => certs
    | some st => certs.filter (fun cert => cert.status = st)
  let certs := match filters.userId with
    | none => certs
    | some u => certs.filter (fun cert => cert.userId = u)
  let certs := match filters.search with
    | none => certs
    | some term => certs.filter (fun cert => searchMatches cert (jsToLower term))
  let certs := match filters.dateFrom with
    | none => certs
    | some df => certs.filter (fun cert => df ≤ cert.createdAt)
  let certs := match filters.dateTo with
    | none => certs
    | some dt => certs.filter (fun cert => cert.createdAt ≤ dt)
  let sorted := sortByCreatedAtDesc certs
  let total := sorted.length
  let paged := sorted.drop (filters.offset.getD 0)
  let paged := match filters.limit with
    | none => paged
    | some l => paged.take l
  (paged, total)

/-- The empty search term occurs in every string. -/
lemma jsIncludes_nil (hay : List Char) : jsIncludes hay [] = true := by
  cases hay <;> rfl

/-- The code's truthiness-guarded userId filter agrees with the spec's
presence-guarded one except at the empty string. -/
lemma userIdStage_eq (l : List Certificate) (uid : Option (List Char)) (hu : uid ≠ some []) :
    (if truthyStr uid then l.filter (fun cert => cert.userId = uid.getD []) else l) =
      (match uid with
       | none => l
       | some u => l.filter (fun cert => cert.userId = u)) := by
  cases uid with
  | none => rfl
  | some u =>
      cases u with
      | nil => exact absurd rfl hu
      | cons a as => simp [truthyStr]

/-- The code's truthiness-guarded search filter agrees with the spec's
presence-guarded one everywhere: skipping an empty search term equals
filtering with it, because the empty term substring-matches every name. -/
lemma searchStage_eq (l : List Certificate) (s : Option (List Char)) :
    (if truthyStr s then l.filter (fun cert => searchMatches cert (jsToLower (s.getD []))) else l) =
      (match s with
       | none => l
       | some term => l.filter (fun cert => searchMatches cert (jsToLower term))) := by
  cases s with
  | none => rfl
  | some term =>
      cases term with
      | nil =>
          simp only [truthyStr, List.isEmpty_nil, Bool.not_true, if_neg]
          show l = l.filter (fun cert => searchMatches cert (jsToLower []))
          symm
          apply List.filter_eq_self.mpr
          intro a _
          simp [searchMatches, jsToLower, jsIncludes_nil]
      | cons a as => simp [truthyStr]

/-- The code's truthiness-guarded offset agrees with the spec's
unconditional one everywhere: skipping a zero offset equals dropping 0. -/
lemma offsetStage_eq (l : List Certificate) (off : Option Nat) :
    (if truthyNum off then l.drop (off.getD 0) else l) = l.drop (off.getD 0) := by
  cases off with
  | none => rfl
  | some n =>
      cases n with
      | zero => simp [truthyNum]
      | succ m => simp [truthyNum]

/-- The code's truthiness-guarded limit agrees with the spec's
presence-guarded one except at `limit = 0`. -/
lemma limitStage_eq (l : List Certificate) (lim : Option Nat) (hl : lim ≠ some 0) :
    (if truthyNum lim then l.take (lim.getD 0) else l) =
      (match lim with
       | none => l
       | some n => l.take n) := by
  cases lim with
  | none => rfl
  | some n =>
      cases n with
      | zero => exact absurd rfl hl
      | succ m => simp [truthyNum]

/-- C7 (amended): provided the supplied `userId` is not the empty string
and the supplied `limit` is not zero, `getCertificates` behaves exactly
as claimed: all supplied filters conjunctively (status and owner exact
match, case-insensitive substring search over name, description,
recipientName and certificateId, inclusive `createdAt` bounds), stable
sort by `createdAt` descending, then offset, then limit, with `total`
the pre-pagination count. -/
theorem getCertificates_eq_spec (store : CertStore) (filters : CertificateFilters)
    (hu : filters.userId ≠ some []) (hl : filters.limit ≠ some 0) :
    getCertificates store filters = specGetCertificates store filters := by
  have hjs : ∀ (l : List Certificate),
      l.filter (fun cert => searchMatches cert (jsToLower [])) = l := by
    intro l
    apply List.filter_eq_self.mpr
    intro a _
    simp [searchMatches, jsToLower, jsIncludes_nil]
  obtain ⟨fst, fuid, fsearch, fdf, fdt, flim, foff⟩ := filters
  rcases fuid with _ | (_ | ⟨ua, uas⟩)
  · rcases fsearch with _ | (_ | ⟨sa, sas⟩) <;>
    rcases foff with _ | (_ | ofs) <;>
    rcases flim with _ | (_ | lim) <;>
      first
        | exact absurd rfl hl
        | simp [getCertificates, specGetCertificates, truthyStr, truthyNum, hjs]
  · exact absurd rfl hu
  · rcases fsearch with _ | (_ | ⟨sa, sas⟩) <;>
    rcases foff with _ | (_ | ofs) <;>
    rcases flim with _ | (_ | lim) <;>
      first
        | exact absurd rfl hl
        | simp [getCertificates, specGetCertificates, truthyStr, truthyNum, hjs]

/-- Witness for C7 (amended) at a one-certificate store with a non-empty
owner filter and a nonzero limit. -/
theorem getCertificates_eq_spec_witness :
    getCertificates [("id-1".data, mkCert CertificateStatus.draft none)]
        { userId := some "user-1".data, limit := some 1 } =
      specGetCertificates [("id-1".data, mkCert CertificateStatus.draft none)]
        { userId := some "user-1".data, limit := some 1 } :=
  getCertificates_eq_spec _ _ (by decide) (by decide)

/-- Counterexample to C7 as stated: with a supplied `limit` of `0` the
code skips the limit (JS falsiness) and returns the certificate, while
the claimed semantics would truncate the page to nothing. -/
theorem getCertificates_limitZero_counterexample :
    (getCertificates [("id-1".data, mkCert CertificateStatus.draft none)]
        { limit := some 0 }).1 = [mkCert CertificateStatus.draft none] ∧
    (specGetCertificates [("id-1".data, mkCert CertificateStatus.draft none)]
        { limit := some 0 }).1 = [] ∧
    getCertificates [("id-1".data, mkCert CertificateStatus.draft none)]
        { limit := some 0 } ≠
      specGetCertificates [("id-1".data, mkCert CertificateStatus.draft none)]
        { limit := some 0 } := by
  decide

end PIC
